import Mathlib

/-!
Shallow embedding of the dqcai-logger dispatch and configuration engine
(core `UniversalLogger` in src/core/Logger.ts, the improved
`CommonLoggerConfig` registry layer in config/logger-config.ts, and the
`formatLogMessage` helper), together with theorems settling the spec
claims about filtering, fan-out isolation, configuration aliasing and
message formatting.

Modelling conventions:
- JavaScript strings are Lean `String`; `LogLevel` is modelled as `String`
  so that unknown level strings can be expressed (the code defends
  against them with `indexOf === -1`).
- `Record<string, T>` objects are association lists `List (String × T)`
  with last-write-wins update that keeps the original key position,
  matching both plain-object property assignment and `Map.set`.
- A promise that fulfills or rejects is `Except String α`: `.error`
  uniformly stands for a synchronous throw or a rejected promise.
- Effects of a call (entries constructed, transport invocations,
  `console.error` fallback output) are reified in the returned value.
-/

namespace DqcaiLogger

/-- Association-list lookup, modelling `record[key]` / `map.get(key)`:
`none` stands for JavaScript `undefined`. -/
def lookupKey {α : Type} : List (String × α) → String → Option α
  | [], _ => none
  | (k, v) :: rest, key => if key = k then some v else lookupKey rest key

/-- Association-list update, modelling `record[key] = value` /
`map.set(key, value)`: replaces the value at an existing key in place
(keeping its position, as `Map.set` does) or appends a new binding. -/
def setKey {α : Type} : List (String × α) → String → α → List (String × α)
  | [], key, value => [(key, value)]
  | (k, v) :: rest, key, value =>
      if key = k then (k, value) :: rest else (k, v) :: setKey rest key value

/-- Association-list delete, modelling `map.delete(key)`; returns the new
list and whether a binding was removed. -/
def deleteKey {α : Type} : List (String × α) → String → List (String × α) × Bool
  | [], _ => ([], false)
  | (k, v) :: rest, key =>
      if key = k then (rest, true)
      else
        let r := deleteKey rest key
        ((k, v) :: r.1, r.2)

/-- The `ModuleConfig` from types/Logger.types.ts.  The `transports` field is
declared required in the interface but is absent in some runtime configs
(for example `disableModule` builds `{ enabled: false }`), and the
dispatcher reads it with `moduleConfig?.transports`, so it is modelled as
an `Option`. -/
structure ModuleConfig where
  enabled : Bool
  levels : List String
  transports : Option (List String)
deriving Repr, DecidableEq, BEq

/-- The `LoggerConfig` from types/Logger.types.ts.  `metadata` values are
modelled as strings: the configuration snapshot is required to round-trip
through plain JSON, so only plain data occurs there.  An absent
`metadata` field is the empty list. -/
structure LoggerConfig where
  enabled : Bool
  defaultLevel : String
  modules : List (String × ModuleConfig)
  sessionId : Option String
  metadata : List (String × String)
deriving Repr, DecidableEq, BEq

/-- The `LogEntry` from types/Logger.types.ts; `data` is modelled opaquely. -/
structure LogEntry where
  timestamp : String
  level : String
  module : String
  message : String
  data : Option String
  metadata : List (String × String)
  sessionId : String
deriving Repr, DecidableEq

/-- The fixed severity list `["trace", "debug", "info", "warn", "error"]`
declared inside `isLevelEnabled`. -/
def severityLevels : List String := ["trace", "debug", "info", "warn", "error"]

/-- JavaScript `Array.prototype.indexOf`: index of the first occurrence,
`-1` when absent. -/
def jsIndexOf (x : String) : List String → Int
  | [] => -1
  | a :: rest =>
      if x = a then 0
      else
        let r := jsIndexOf x rest
        if r = -1 then -1 else r + 1

/-- The `UniversalLogger.isLevelEnabled` (core/Logger.ts lines 149-161):
ordinal comparison over the fixed severity list, failing closed when
either level string is unknown (`indexOf === -1`). -/
def isLevelEnabled (level threshold : String) : Bool :=
  let levelIndex := jsIndexOf level severityLevels
  let thresholdIndex := jsIndexOf threshold severityLevels
  if levelIndex = -1 ∨ thresholdIndex = -1 then false
  else levelIndex ≥ thresholdIndex

/-- The `UniversalLogger.shouldLog` (core/Logger.ts lines 137-147): global
kill switch, then per-module exact set membership when a module
configuration is present, else the ordinal default-level gate. -/
def shouldLog (config : LoggerConfig) (module level : String) : Bool :=
  if !config.enabled then false
  else
    match lookupKey config.modules module with
    | none => isLevelEnabled level config.defaultLevel
    | some moduleConfig => moduleConfig.enabled && moduleConfig.levels.contains level

/-- Specification-side severity ordinal for the fixed total order
trace < debug < info < warn < error; `none` for unknown strings.  Used
only to state claims, never by the embedded code. -/
def levelOrdinal (level : String) : Option Nat :=
  if level = "trace" then some 0
  else if level = "debug" then some 1
  else if level = "info" then some 2
  else if level = "warn" then some 3
  else if level = "error" then some 4
  else none

/-! ## Transports and the asynchronous effect model -/

/-- Decidable equality for settled promises, so concrete outcomes can be
checked by evaluation. -/
instance exceptDecEq {ε α : Type} [DecidableEq ε] [DecidableEq α] :
    DecidableEq (Except ε α) := fun x y =>
  match x, y with
  | .ok a, .ok b =>
      if h : a = b then isTrue (by rw [h])
      else isFalse (fun hh => by cases hh; exact h rfl)
  | .ok _, .error _ => isFalse (fun hh => by cases hh)
  | .error _, .ok _ => isFalse (fun hh => by cases hh)
  | .error e, .error f =>
      if h : e = f then isTrue (by rw [h])
      else isFalse (fun hh => by cases hh; exact h rfl)

/-- What invoking a JavaScript method can do, seen from the caller: throw
synchronously during the call, or return — the returned value/promise
then settling as an `Except` (`.error` for a rejection).  The
distinction matters wherever a call site has no surrounding
`try`/`catch` or `async` wrapper: there a synchronous throw escapes the
caller, while a rejected promise is just a value. -/
inductive JsCallResult (α : Type) where
  | throws (e : String)
  | returns (p : Except String α)
deriving Repr, DecidableEq

/-- An `ILogTransport` instance.  `logBehavior` uses the settled view
`Except String Unit` (error standing for a synchronous throw or a
rejection alike) because the dispatcher invokes `log` inside an `async`
callback with `try`/`catch`, which really does unify the two paths.
`flush`/`cleanup`, by contrast, are invoked by a bare `.map` callback
with no wrapper, so their behaviours keep the full `JsCallResult`
distinction; `none` when the optional method is not defined
(`typeof transport.flush !== "function"`). -/
structure Transport where
  name : String
  logBehavior : LogEntry → Except String Unit
  flushBehavior : Option (JsCallResult Unit)
  cleanupBehavior : Option (JsCallResult Unit)

/-- Outcome of an already-settled promise, as reported by
`Promise.allSettled`. -/
inductive Settled (α : Type) where
  | fulfilled (value : α)
  | rejected (reason : String)
deriving Repr, DecidableEq

/-- How one promise settles: fulfilled with its value or rejected with
its reason. -/
def promiseSettle {α : Type} (p : Except String α) : Settled α :=
  match p with
  | .ok a => Settled.fulfilled a
  | .error e => Settled.rejected e

/-- The `Promise.allSettled`: waits for every promise and never rejects
itself — the result is `.ok` for every input list, including lists
containing rejected promises. -/
def promiseAllSettled {α : Type} (promises : List (Except String α)) :
    Except String (List (Settled α)) :=
  .ok (promises.map promiseSettle)

/-- A JavaScript `try { ... } catch (e) { ... }` block over the promise
model. -/
def jsTryCatch {α : Type} (body : Except String α)
    (handler : String → Except String α) : Except String α :=
  match body with
  | .ok a => .ok a
  | .error e => handler e

/-- Dispatcher state: the `UniversalLogger` fields relevant to dispatch
(`config`, the name-keyed `transports` map, `sessionId`). -/
structure DispatcherState where
  config : LoggerConfig
  transports : List (String × Transport)
  sessionId : String

/-- Reified effects of one `log()` call: the entries constructed, each
transport invocation `(transport name, entry it received)`, and the
messages emitted on the fallback `console.error` diagnostic channel. -/
structure LogOutcome where
  constructedEntries : List LogEntry
  invocations : List (String × LogEntry)
  consoleErrors : List String
deriving Repr, DecidableEq

namespace UniversalLogger

/-- The `new UniversalLogger(config)` (core/Logger.ts lines 67-70): stores
the configuration and takes `config.sessionId` when present, else a
freshly generated id (generation uses ambient time and randomness, passed
in here as `freshId`).  The transport map starts empty. -/
def mkDispatcher (config : LoggerConfig) (freshId : String) : DispatcherState :=
  { config := config
    transports := []
    sessionId := config.sessionId.getD freshId }

/-- The `addTransport` (core/Logger.ts lines 91-93):
`this.transports.set(transport.name, transport)`. -/
def addTransport (st : DispatcherState) (transport : Transport) : DispatcherState :=
  { st with transports := setKey st.transports transport.name transport }

/-- The `removeTransport` (core/Logger.ts lines 95-97). -/
def removeTransport (st : DispatcherState) (name : String) : DispatcherState × Bool :=
  let r := deleteKey st.transports name
  ({ st with transports := r.1 }, r.2)

/-- The `getTransport` (core/Logger.ts lines 99-101). -/
def getTransport (st : DispatcherState) (name : String) : Option Transport :=
  lookupKey st.transports name

/-- The `listTransports` (core/Logger.ts lines 103-105). -/
def listTransports (st : DispatcherState) : List String :=
  st.transports.map Prod.fst

/-- The transport-name resolution inside `getTransportsForModule`
(core/Logger.ts line 165): `moduleConfig?.transports || ["console"]`.
`moduleConfig?.transports` is `undefined` (falsy) when the module has no
configuration entry or its `transports` field is absent; a present array
is truthy even when empty, so an empty configured list is kept as is. -/
def getTransportNamesForModule (config : LoggerConfig) (module : String) : List String :=
  match (lookupKey config.modules module).bind ModuleConfig.transports with
  | none => ["console"]
  | some names => names

/-- The `getTransportsForModule` (core/Logger.ts lines 163-172): map each
name through the registry and drop the `undefined` results
(`.map(...).filter(t => t !== undefined)` is this `filterMap`). -/
def getTransportsForModule (st : DispatcherState) (module : String) : List Transport :=
  (getTransportNamesForModule st.config module).filterMap
    (fun name => lookupKey st.transports name)

/-- The promise built for one transport inside `sendToTransports`
(core/Logger.ts lines 180-190): `try { await transport.log(entry) }
catch (error) { console.error(...) }`.  Its value is the list of
`console.error` messages emitted by this branch (empty on success);
thanks to the catch it never rejects, which the theorems below prove
rather than assume. -/
def transportAttempt (entry : LogEntry) (transport : Transport) :
    Except String (List String) :=
  jsTryCatch
    (do
      let _ ← transport.logBehavior entry
      pure [])
    (fun error =>
      pure ["[UniversalLogger] Transport " ++ transport.name ++ " failed: " ++ error])

/-- The `console.error` output recorded by one settled guarded promise
(its value when fulfilled; a rejected branch emitted nothing). -/
def settledMessages (s : Settled (List String)) : List String :=
  match s with
  | .fulfilled msgs => msgs
  | .rejected _ => []

/-- The `sendToTransports` (core/Logger.ts lines 174-193): early return on an
empty transport list, else fan out one guarded promise per transport and
`await Promise.allSettled(promises)`.  Every listed transport receives
the entry (the `invocations` field); fallback diagnostics are collected
from the settled branches. -/
def sendToTransports (entry : LogEntry) (transports : List Transport) :
    Except String LogOutcome :=
  if transports.length = 0 then .ok ⟨[], [], []⟩
  else do
    let promises := transports.map (transportAttempt entry)
    let settled ← promiseAllSettled promises
    pure ⟨[],
      transports.map (fun t => (t.name, entry)),
      (settled.map settledMessages).flatten⟩

/-- The `log` (core/Logger.ts lines 196-216): the `shouldLog` gate (an early
return constructs nothing and invokes nothing), then entry construction
with the ambient timestamp `now`, transport resolution, and the guarded
fan-out. -/
def log (st : DispatcherState) (module level message : String)
    (data : Option String) (now : String) : Except String LogOutcome :=
  if !shouldLog st.config module level then .ok ⟨[], [], []⟩
  else do
    let entry : LogEntry :=
      { timestamp := now
        level := level
        module := module
        message := message
        data := data
        metadata := st.config.metadata
        sessionId := st.sessionId }
    let out ← sendToTransports entry (getTransportsForModule st module)
    pure { out with constructedEntries := [entry] }

/-- The bare `.map((transport) => transport.flush!())` (respectively
`cleanup`) of core/Logger.ts lines 246-248 and 255-257: the callback has
no `async` wrapper and no `try`/`catch`, so the calls run left to right
and a synchronous throw escapes the `map` itself — the callbacks after
the thrower never run.  Returns the names of the transports whose method
was actually invoked, and either the escaped error or the list of
returned promises.  The `getD` default is unreachable: the list is
already filtered to transports whose method is defined (the source's `!`
assertion). -/
def jsMapMethodCalls (method : Transport → Option (JsCallResult Unit)) :
    List Transport → List String × Except String (List (Except String Unit))
  | [] => ([], .ok [])
  | t :: rest =>
      match (method t).getD (.returns (.ok ())) with
      | .throws e => ([t.name], .error e)
      | .returns p =>
          let r := jsMapMethodCalls method rest
          (t.name :: r.1, r.2.map (fun ps => p :: ps))

/-- The `flush` (core/Logger.ts lines 244-251): filter the registered
transports to those defining `flush`, invoke each with the bare `map`,
and `await Promise.allSettled` over the returned promises.  When one of
the calls throws synchronously, the throw happens before
`Promise.allSettled` is reached, so the `async` method's own promise
rejects with that error.  The first component is the reified invocation
trace (which transports' `flush()` actually ran). -/
def flush (st : DispatcherState) : List String × Except String (List (Settled Unit)) :=
  let transports := st.transports.map Prod.snd
  let mapped :=
    jsMapMethodCalls Transport.flushBehavior
      (transports.filter (fun t => t.flushBehavior.isSome))
  match mapped.2 with
  | .error e => (mapped.1, .error e)
  | .ok flushPromises => (mapped.1, promiseAllSettled flushPromises)

/-- The `cleanup` (core/Logger.ts lines 253-260): same pattern as `flush`
for the optional `cleanup` method, including the synchronous-throw
escape. -/
def cleanup (st : DispatcherState) : List String × Except String (List (Settled Unit)) :=
  let transports := st.transports.map Prod.snd
  let mapped :=
    jsMapMethodCalls Transport.cleanupBehavior
      (transports.filter (fun t => t.cleanupBehavior.isSome))
  match mapped.2 with
  | .error e => (mapped.1, .error e)
  | .ok cleanupPromises => (mapped.1, promiseAllSettled cleanupPromises)

end UniversalLogger

/-! ## Process-wide registry layer (improved config/logger-config.ts) -/

/-- The built-in `ConsoleTransport` (transports/ConsoleTransport.ts):
`name` is `"console"`, `log` formats the entry and writes it to the
console, returning normally; no optional `flush`/`cleanup` methods. -/
def consoleTransport : Transport :=
  { name := "console"
    logBehavior := fun _ => .ok ()
    flushBehavior := none
    cleanupBehavior := none }

/-- The `createLogger(config, transports)` from the improved
config/logger-config.ts (lines 8-26): construct a `UniversalLogger`,
add the default console transport, then add each supplied custom
transport in order.  The configuration argument is always supplied on
the paths modelled here, so the `LoggerUtils.createDevelopmentConfig()`
default for an omitted argument is not modelled. -/
def createLogger (config : LoggerConfig) (transports : List Transport)
    (freshId : String) : DispatcherState :=
  let logger :=
    UniversalLogger.addTransport (UniversalLogger.mkDispatcher config freshId)
      consoleTransport
  transports.foldl UniversalLogger.addTransport logger

/-- The static state of `CommonLoggerConfig` (improved
config/logger-config.ts): the current configuration, the custom
transports registered through this layer (`customTransports`), and the
live dispatcher instance. -/
structure RegistryState where
  currentConfig : Option LoggerConfig
  customTransports : List Transport
  instLogger : Option DispatcherState

namespace CommonLoggerConfig

/-- The change-detection guard at the top of `updateConfiguration`
(improved config/logger-config.ts lines 183-190): compares `enabled`,
`defaultLevel`, and the module maps via `JSON.stringify`.  Two module
association lists produce the same JSON text exactly when they are equal
as ordered lists of bindings, so the `JSON.stringify` comparison is
modelled as list equality. -/
def configUnchanged (current newConfig : LoggerConfig) : Bool :=
  current.enabled == newConfig.enabled &&
  current.defaultLevel == newConfig.defaultLevel &&
  current.modules == newConfig.modules

/-- The `CommonLoggerConfig.updateConfiguration(newConfig)` (improved
config/logger-config.ts lines 181-199): skip when the guard reports the
configuration unchanged (or there is no previous configuration to
compare and the guard short-circuits on `current &&`); otherwise store
the new configuration and rebuild the dispatcher with
`createLogger(newConfig, customTransports)`, re-attaching every
transport registered through this layer. -/
def updateConfiguration (st : RegistryState) (newConfig : LoggerConfig)
    (freshId : String) : RegistryState :=
  match st.currentConfig with
  | some current =>
      if configUnchanged current newConfig then st
      else
        { currentConfig := some newConfig
          customTransports := st.customTransports
          instLogger := some (createLogger newConfig st.customTransports freshId) }
  | none =>
      { currentConfig := some newConfig
        customTransports := st.customTransports
        instLogger := some (createLogger newConfig st.customTransports freshId) }

end CommonLoggerConfig

/-! ## Aliasing model for configuration mutation (C7/C8)

The configuration-mutation operations assign through `this.config`, so
whether they mutate a caller-visible object is a question about object
identity.  A minimal heap of `LoggerConfig` objects makes identity
explicit: addresses are indices into a cell list, the constructor stores
an address (line 68 of core/Logger.ts is `this.config = config`, no
copy), and each mutation operation is a read-modify-write on the stored
address, mirroring the field assignments in the source. -/

/-- A heap of configuration objects; an address is an index. -/
structure Heap where
  cells : List LoggerConfig
deriving Repr, DecidableEq

/-- Dereference an address. -/
def Heap.read (h : Heap) (addr : Nat) : Option LoggerConfig :=
  h.cells[addr]?

/-- Overwrite the object at an address (in-place mutation). -/
def Heap.write (h : Heap) (addr : Nat) (cfg : LoggerConfig) : Heap :=
  ⟨h.cells.set addr cfg⟩

/-- Allocate a fresh object, returning the new heap and its address. -/
def Heap.alloc (h : Heap) (cfg : LoggerConfig) : Heap × Nat :=
  (⟨h.cells ++ [cfg]⟩, h.cells.length)

/-- The dispatcher as seen by the aliasing model: it holds the address
of its configuration object. -/
structure LoggerRef where
  configAddr : Nat
deriving Repr, DecidableEq

namespace AliasModel

/-- The `new UniversalLogger(config)` (core/Logger.ts line 68,
`this.config = config`): the constructor stores the reference to the
caller-supplied configuration object; no copy is made. -/
def mkLogger (configAddr : Nat) : LoggerRef :=
  ⟨configAddr⟩

/-- The `{...this.config.metadata, ...metadata}`: spread merge of two plain
records — existing keys keep their position and take the overriding
value, new keys are appended in order. -/
def mergeRecords (old new : List (String × String)) : List (String × String) :=
  new.foldl (fun acc kv => setKey acc kv.1 kv.2) old

/-- The `setGlobalEnabled` (core/Logger.ts lines 116-118):
`this.config.enabled = enabled` — a field assignment on the object the
stored reference points to.  The `none` branch is unreachable for a
reference produced by the constructor on a live object. -/
def setGlobalEnabled (h : Heap) (lg : LoggerRef) (enabled : Bool) : Heap :=
  match h.read lg.configAddr with
  | some cfg => h.write lg.configAddr { cfg with enabled := enabled }
  | none => h

/-- The `setDefaultLevel` (core/Logger.ts lines 124-126):
`this.config.defaultLevel = level`. -/
def setDefaultLevel (h : Heap) (lg : LoggerRef) (level : String) : Heap :=
  match h.read lg.configAddr with
  | some cfg => h.write lg.configAddr { cfg with defaultLevel := level }
  | none => h

/-- The `setModuleConfig` (core/Logger.ts lines 108-110):
`this.config.modules[module] = config` — mutates the `modules` record of
the shared configuration object. -/
def setModuleConfig (h : Heap) (lg : LoggerRef) (module : String)
    (moduleConfig : ModuleConfig) : Heap :=
  match h.read lg.configAddr with
  | some cfg =>
      h.write lg.configAddr
        { cfg with modules := setKey cfg.modules module moduleConfig }
  | none => h

/-- The `setMetadata` (core/Logger.ts lines 132-134):
`this.config.metadata = {...this.config.metadata, ...metadata}` — builds
a fresh merged record but assigns it into the shared configuration
object. -/
def setMetadata (h : Heap) (lg : LoggerRef) (metadata : List (String × String)) : Heap :=
  match h.read lg.configAddr with
  | some cfg =>
      h.write lg.configAddr
        { cfg with metadata := mergeRecords cfg.metadata metadata }
  | none => h

/-- The `JSON.parse(JSON.stringify(cfg))` on a configuration object: the
snapshot shape is plain JSON data (booleans, strings, string lists and
records), so the round trip reproduces the value exactly; the copying
itself is expressed by allocating a fresh cell in `getConfig`. -/
def jsonDeepCopy (cfg : LoggerConfig) : LoggerConfig :=
  cfg

/-- The `getConfig` (core/Logger.ts lines 128-130):
`return JSON.parse(JSON.stringify(this.config))` — serialize the current
configuration and materialize it as a freshly allocated object, whose
address is returned to the caller.  The `none` branch is unreachable for
a live reference. -/
def getConfig (h : Heap) (lg : LoggerRef) : Heap × Nat :=
  match h.read lg.configAddr with
  | some cfg => h.alloc (jsonDeepCopy cfg)
  | none => (h, lg.configAddr)

/-- The `shouldLog` as executed against the heap: dereference the stored
configuration and apply the filtering decision. -/
def shouldLogRef (h : Heap) (lg : LoggerRef) (module level : String) : Bool :=
  match h.read lg.configAddr with
  | some cfg => shouldLog cfg module level
  | none => false

end AliasModel

/-! ## Message formatting (`formatLogMessage`, core/Logger.ts lines 15-59)

JavaScript runtime values are modelled by the inductive `JSValue`.
Object graphs in an inductive type are necessarily acyclic, so a value
on which `JSON.stringify` throws (the circular-reference case the
source's catch block exists for) is represented by the constructor
`unserializable`, carrying the message of the error the serializer
raises on it.  A number is carried by its display string, a date by its
ISO rendering, a buffer by its byte contents, a function by its optional
name (`none` also covers the falsy empty name, which
`value.name || "anonymous"` treats as absent) and its source text (what
`String(fn)` yields).

`JSON.stringify` is modelled in two stages matching ECMA-262
SerializeJSONProperty: a value's own `toJSON` method is applied before
the replacer ever sees it (`applyToJSON` below: Node buffers expand to
the plain object with `type` and `data` fields; dates turn into the same
ISO string the replacer branch would produce, so they need no separate
rewriting here), and only then does the source's replacer run
(`serValue` below).  In particular the replacer's `Buffer.isBuffer`
branch never fires at run time — it is kept in `serValue` only to
mirror the source text. -/

inductive JSValue where
  | str (s : String)
  | num (display : String)
  | boolean (b : Bool)
  | nullV
  | undefinedV
  | bigintV (n : Int)
  | date (iso : String)
  | buffer (bytes : List Nat)
  | fn (name : Option String) (srcText : String)
  | obj (fields : List (String × JSValue))
  | arr (elems : List JSValue)
  | unserializable (errMsg : String)
deriving Repr

/-- JavaScript `typeof`. -/
def JSValue.typeof : JSValue → String
  | .str _ => "string"
  | .num _ => "number"
  | .boolean _ => "boolean"
  | .nullV => "object"
  | .undefinedV => "undefined"
  | .bigintV _ => "bigint"
  | .date _ => "object"
  | .buffer _ => "object"
  | .fn _ _ => "function"
  | .obj _ => "object"
  | .arr _ => "object"
  | .unserializable _ => "object"

/-- JavaScript `String(value)` for the values that reach the final
`String(arg)` branch of `formatLogMessage` (primitives and functions);
the object cases, which that branch never receives, are given the
standard default rendering. -/
def JSValue.jsToString : JSValue → String
  | .str s => s
  | .num display => display
  | .boolean b => if b then "true" else "false"
  | .nullV => "null"
  | .undefinedV => "undefined"
  | .bigintV n => toString n
  | .fn _ srcText => srcText
  | _ => "[object Object]"

/-- Escape a string for inclusion in a JSON string literal. -/
def jsonEscape (s : String) : String :=
  s.data.foldl
    (fun acc c =>
      acc ++
        (if c = '\\' then "\\\\"
         else if c = '"' then "\\\""
         else if c = '\n' then "\\n"
         else if c = '\t' then "\\t"
         else if c = '\r' then "\\r"
         else String.singleton c))
    ""

/-- A JSON string literal. -/
def jsonQuote (s : String) : String :=
  "\"" ++ jsonEscape s ++ "\""

/-- Item separator of `JSON.stringify(value, replacer, 2)` output at a
given indentation. -/
def joinComma (gap : String) (items : List String) : String :=
  String.intercalate (",\n" ++ gap) items

mutual

/-- One step of `JSON.stringify(arg, replacer, 2)` (core/Logger.ts lines
26-48) at indentation `gap`: the custom replacer substitutes nested
BigInt, Date, Buffer and Function values by strings, then standard JSON
serialization applies.  `.ok none` is a value that serializes to nothing
(`undefined`: dropped in objects, `null` in arrays); `.error` is the
serializer throwing, which only the `unserializable` values do (a raw
BigInt would also throw, but the replacer rewrites every BigInt first,
so that branch is unreachable). -/
def serValue (gap : String) : JSValue → Except String (Option String)
  | .str s => .ok (some (jsonQuote s))
  | .num display => .ok (some display)
  | .boolean b => .ok (some (if b then "true" else "false"))
  | .nullV => .ok (some "null")
  | .undefinedV => .ok none
  | .bigintV n => .ok (some (jsonQuote (toString n)))
  | .date iso => .ok (some (jsonQuote iso))
  | .buffer bytes =>
      -- The replacer branch for `Buffer.isBuffer(value)` as written in the
      -- source.  It is dead code at run time: `Buffer.prototype.toJSON`
      -- runs before the replacer (see `applyToJSON`), so the replacer
      -- never receives a raw buffer and this placeholder never appears in
      -- the program's output.
      .ok (some (jsonQuote ("<Buffer " ++ toString bytes.length ++ " bytes>")))
  | .fn name _ =>
      .ok (some (jsonQuote ("<Function " ++ name.getD "anonymous" ++ ">")))
  | .obj fields => do
      let items ← serFields (gap ++ "  ") fields
      pure (some
        (if items.isEmpty then "\x7b\x7d"
         else
           "\x7b\n" ++ gap ++ "  " ++ joinComma (gap ++ "  ") items ++
             "\n" ++ gap ++ "\x7d"))
  | .arr elems => do
      let items ← serElems (gap ++ "  ") elems
      pure (some
        (if items.isEmpty then "[]"
         else
           "[\n" ++ gap ++ "  " ++ joinComma (gap ++ "  ") items ++
             "\n" ++ gap ++ "]"))
  | .unserializable errMsg => .error errMsg

/-- Serialize the fields of an object, dropping those whose value
serializes to `undefined`. -/
def serFields (gap : String) : List (String × JSValue) → Except String (List String)
  | [] => .ok []
  | (k, v) :: rest => do
      let rv ← serValue gap v
      let rs ← serFields gap rest
      match rv with
      | none => pure rs
      | some s => pure ((jsonQuote k ++ ": " ++ s) :: rs)

/-- Serialize the elements of an array; `undefined` elements render as
`null`. -/
def serElems (gap : String) : List JSValue → Except String (List String)
  | [] => .ok []
  | v :: rest => do
      let rv ← serValue gap v
      let rs ← serElems gap rest
      pure ((rv.getD "null") :: rs)

end

mutual

/-- The `toJSON` stage of `JSON.stringify` (ECMA-262
SerializeJSONProperty applies a value's own `toJSON` method before the
replacer is called with it): Node buffers expose
`Buffer.prototype.toJSON` and expand to the plain object
`{type: "Buffer", data: [...bytes]}` — which is why the source's
`Buffer.isBuffer` replacer branch never fires.  Dates also expose
`toJSON`, but it yields the same ISO string as the replacer branch, so
the `date` case needs no rewriting; no other modelled value has a
`toJSON` method. -/
def applyToJSON : JSValue → JSValue
  | .buffer bytes =>
      .obj [("type", .str "Buffer"),
            ("data", .arr (bytes.map (fun b => JSValue.num (toString b))))]
  | .obj fields => .obj (applyToJSONFields fields)
  | .arr elems => .arr (applyToJSONElems elems)
  | v => v

/-- The `toJSON` stage over the fields of an object. -/
def applyToJSONFields : List (String × JSValue) → List (String × JSValue)
  | [] => []
  | (k, v) :: rest => (k, applyToJSON v) :: applyToJSONFields rest

/-- The `toJSON` stage over the elements of an array. -/
def applyToJSONElems : List JSValue → List JSValue
  | [] => []
  | v :: rest => applyToJSON v :: applyToJSONElems rest

end

/-- The `JSON.stringify(arg, replacer, 2)` for a top-level argument: the
`toJSON` stage runs first, then the replacer-driven serialization.  The
`getD` default is unreachable: `formatLogMessage` only serializes
non-null values of `typeof` `"object"`, all of which produce output. -/
def jsonStringify (v : JSValue) : Except String String := do
  let r ← serValue "" (applyToJSON v)
  pure (r.getD "undefined")

/-- The `try JSON.stringify ... catch` of core/Logger.ts lines 25-52:
a throwing serialization is replaced by a placeholder naming the error
message. -/
def stringifyCatch (v : JSValue) : String :=
  match jsonStringify v with
  | .ok s => s
  | .error e => "<Error stringifying: " ++ e ++ ">"

/-- The per-argument mapping of `formatLogMessage` (core/Logger.ts lines
17-56), by the `typeof` dispatch of the source: `"bigint"` returns
`arg.toString()`; non-null `"object"` values go through the guarded
`JSON.stringify`; everything else (strings, numbers, booleans,
`undefined`, `null`, functions) falls through to `String(arg)`. -/
def formatArg : JSValue → String
  | .bigintV n => toString n
  | .obj fields => stringifyCatch (.obj fields)
  | .arr elems => stringifyCatch (.arr elems)
  | .date iso => stringifyCatch (.date iso)
  | .buffer bytes => stringifyCatch (.buffer bytes)
  | .unserializable errMsg => stringifyCatch (.unserializable errMsg)
  | v => v.jsToString

/-- The `formatLogMessage(...args)` (core/Logger.ts lines 15-59): map each
argument and `join(" ")`. -/
def formatLogMessage (args : List JSValue) : String :=
  String.intercalate " " (args.map formatArg)

/-! ## Specification-side descriptions used in claim statements -/

/-- The fallback diagnostics the fan-out is expected to emit: one
`console.error` line per failing transport, in transport order. -/
def fallbackMessages (entry : LogEntry) (transports : List Transport) : List String :=
  transports.filterMap fun t =>
    match t.logBehavior entry with
    | .ok _ => none
    | .error e =>
        some ("[UniversalLogger] Transport " ++ t.name ++ " failed: " ++ e)

/-- The entry `log()` constructs when the filter passes. -/
def expectedEntry (st : DispatcherState) (module level message : String)
    (data : Option String) (now : String) : LogEntry :=
  { timestamp := now
    level := level
    module := module
    message := message
    data := data
    metadata := st.config.metadata
    sessionId := st.sessionId }

/-- Statement-side condition: none of the listed transports throws
synchronously from the given optional method (every defined behaviour is
a `.returns`, possibly of a rejecting promise). -/
def returnsOnly (method : Transport → Option (JsCallResult Unit))
    (transports : List Transport) : Prop :=
  ∀ t ∈ transports, ∀ e : String, method t ≠ some (JsCallResult.throws e)

/-- The promise a method call returned (the `.returns` case; a
synchronous throw returns no promise — that branch only makes the
function total and is unreachable wherever this is used under
`returnsOnly`). -/
def callPromise (c : JsCallResult Unit) : Except String Unit :=
  match c with
  | .throws _ => .ok ()
  | .returns p => p

/-! ## Concrete configurations and states used by the witnesses -/

/-- A transport whose `log` fails (rejects) and whose `flush`/`cleanup`
return rejecting promises. -/
def failingTransport : Transport :=
  { name := "file"
    logBehavior := fun _ => .error "disk full"
    flushBehavior := some (.returns (.error "disk full"))
    cleanupBehavior := some (.returns (.error "disk full")) }

/-- A transport whose `flush`/`cleanup` throw synchronously when
invoked. -/
def throwingFlushTransport : Transport :=
  { name := "fileSync"
    logBehavior := fun _ => .ok ()
    flushBehavior := some (.throws "disk full")
    cleanupBehavior := some (.throws "handle closed") }

/-- A transport whose `flush`/`cleanup` return promises that reject. -/
def rejectingFlushTransport : Transport :=
  { name := "api"
    logBehavior := fun _ => .ok ()
    flushBehavior := some (.returns (.error "timeout"))
    cleanupBehavior := some (.returns (.error "timeout")) }

/-- Configuration with module `"db"` restricted to the exact level set
`["error"]`. -/
def c2cfg : LoggerConfig :=
  { enabled := true
    defaultLevel := "info"
    modules := [("db", { enabled := true, levels := ["error"], transports := some ["console"] })]
    sessionId := some "s"
    metadata := [] }

/-- Configuration with no module entries and default level `"warn"`. -/
def c3cfg : LoggerConfig :=
  { enabled := true
    defaultLevel := "warn"
    modules := []
    sessionId := some "s"
    metadata := [] }

/-- Globally disabled configuration whose module `"app"` is explicitly
enabled with all levels. -/
def c4cfg : LoggerConfig :=
  { enabled := false
    defaultLevel := "trace"
    modules := [("app",
      { enabled := true
        levels := ["trace", "debug", "info", "warn", "error"]
        transports := some ["console"] })]
    sessionId := some "s"
    metadata := [] }

/-- Configuration whose module `"m0"` is configured with an empty
transport list and whose module `"m1"` has no `transports` field. -/
def c10cfg : LoggerConfig :=
  { enabled := true
    defaultLevel := "info"
    modules :=
      [("m0", { enabled := true, levels := ["info"], transports := some [] }),
       ("m1", { enabled := true, levels := ["info"], transports := none })]
    sessionId := some "s"
    metadata := [] }

/-- Dispatcher state whose first flush-capable transport throws
synchronously and whose second returns a rejecting promise. -/
def c6state : DispatcherState :=
  { config := c3cfg
    transports :=
      [("fileSync", throwingFlushTransport), ("api", rejectingFlushTransport)]
    sessionId := "s" }

/-- Dispatcher state with one rejecting-promise transport and the
console transport (which defines no `flush`/`cleanup`). -/
def c6stateRejectingOnly : DispatcherState :=
  { config := c3cfg
    transports := [("api", rejectingFlushTransport), ("console", consoleTransport)]
    sessionId := "s" }

/-- Registry-layer state before a reconfiguration: current configuration
`c3cfg`, one custom transport registered through the layer, live
instance built from both. -/
def c5state : RegistryState :=
  { currentConfig := some c3cfg
    customTransports := [failingTransport]
    instLogger := some (createLogger c3cfg [failingTransport] "s") }

/-- A configuration differing from `c3cfg` in `defaultLevel`, so the
update guard reports a change. -/
def c5newConfig : LoggerConfig :=
  { c3cfg with defaultLevel := "trace" }

/-- A configuration object living at address 0 of the heap `c7heap`,
handed to the dispatcher constructor in the aliasing scenarios. -/
def c7cfg : LoggerConfig :=
  { enabled := true
    defaultLevel := "info"
    modules := []
    sessionId := some "s"
    metadata := [] }

/-- One-cell heap holding `c7cfg` at address 0. -/
def c7heap : Heap :=
  ⟨[c7cfg]⟩

/-! ## Theorems -/

theorem jsIndexOf_eq_ordinal (x : String) :
    jsIndexOf x severityLevels =
      match levelOrdinal x with
      | some i => (i : Int)
      | none => -1 := by
  by_cases h0 : x = "trace" <;> by_cases h1 : x = "debug" <;>
    by_cases h2 : x = "info" <;> by_cases h3 : x = "warn" <;>
    by_cases h4 : x = "error" <;>
    simp_all [severityLevels, jsIndexOf, levelOrdinal]

theorem isLevelEnabled_eq_ordinal (level threshold : String) :
    isLevelEnabled level threshold =
      match levelOrdinal level, levelOrdinal threshold with
      | some li, some ti => decide (ti ≤ li)
      | _, _ => false := by
  unfold isLevelEnabled
  rw [jsIndexOf_eq_ordinal, jsIndexOf_eq_ordinal]
  cases hl : levelOrdinal level <;> cases ht : levelOrdinal threshold <;>
    simp [hl, ht]

/-- C2.  With the global switch on and a module configuration present,
the filter decision is exactly `moduleConfig.enabled` together with
exact membership of the level in `moduleConfig.levels` (not an ordinal
comparison); consequently a module configured with `levels = ["error"]`
yields zero constructed entries, zero transport invocations and zero
fallback diagnostics for a `warn` call. -/
theorem configured_module_exact_set_membership (cfg : LoggerConfig)
    (module level : String) (mc : ModuleConfig)
    (hen : cfg.enabled = true) (hmc : lookupKey cfg.modules module = some mc) :
    shouldLog cfg module level = (mc.enabled && mc.levels.contains level) ∧
    (mc.levels = ["error"] →
      ∀ (st : DispatcherState) (message : String) (data : Option String) (now : String),
        st.config = cfg →
        UniversalLogger.log st module "warn" message data now = .ok ⟨[], [], []⟩) := by
  have hdec : shouldLog cfg module level = (mc.enabled && mc.levels.contains level) := by
    unfold shouldLog
    rw [hmc, hen]
    simp
  refine ⟨hdec, ?_⟩
  intro hlv st message data now hst
  have hcw : (["error"] : List String).contains "warn" = false := by decide
  have hwarn : shouldLog cfg module "warn" = false := by
    unfold shouldLog
    rw [hmc, hen]
    simp [hlv, hcw]
  unfold UniversalLogger.log
  rw [hst, hwarn]
  simp

/-- C2 witness: for the concrete configuration `c2cfg` the filter
rejects a `warn` call on module `"db"` and the dispatcher performs no
deliveries for it. -/
theorem configured_module_exact_set_membership_witness :
    shouldLog c2cfg "db" "warn" = false ∧
    UniversalLogger.log ⟨c2cfg, [("console", consoleTransport)], "s"⟩
      "db" "warn" "boom" none "t0" = .ok ⟨[], [], []⟩ := by
  have h := configured_module_exact_set_membership c2cfg "db" "warn"
    { enabled := true, levels := ["error"], transports := some ["console"] }
    (by decide) (by decide)
  refine ⟨?_, h.2 rfl ⟨c2cfg, [("console", consoleTransport)], "s"⟩ "boom" none "t0" rfl⟩
  rw [h.1]
  decide

/-- C3.  With the global switch on and no module configuration entry,
the filter decision is the ordinal comparison over the fixed order
trace < debug < info < warn < error, and it is `false` (fail closed,
no exception — the decision is a total Boolean function) whenever the
call level or the default level is not one of the five known level
strings. -/
theorem unconfigured_module_ordinal_gate (cfg : LoggerConfig)
    (module level : String)
    (hen : cfg.enabled = true) (hmc : lookupKey cfg.modules module = none) :
    shouldLog cfg module level =
      match levelOrdinal level, levelOrdinal cfg.defaultLevel with
      | some li, some ti => decide (ti ≤ li)
      | _, _ => false := by
  unfold shouldLog
  rw [hmc, hen]
  simp [isLevelEnabled_eq_ordinal]

/-- C3 witness: with default level `"warn"` and no module entry, `info`
is filtered, `error` passes, and an unknown level string `"verbose"` is
rejected without an exception. -/
theorem unconfigured_module_ordinal_gate_witness :
    shouldLog c3cfg "anyModule" "info" = false ∧
    shouldLog c3cfg "anyModule" "error" = true ∧
    shouldLog c3cfg "anyModule" "verbose" = false := by
  refine ⟨?_, ?_, ?_⟩ <;>
    rw [unconfigured_module_ordinal_gate c3cfg "anyModule" _ (by decide) (by decide)] <;>
    decide

/-- C4.  When the global `enabled` flag is false, `log` returns `.ok`
immediately with no constructed entry, no transport invocation and no
fallback diagnostics — for every module, level and module
configuration, including modules explicitly enabled with all levels. -/
theorem global_kill_switch_dominance (st : DispatcherState)
    (module level message : String) (data : Option String) (now : String)
    (hdisabled : st.config.enabled = false) :
    UniversalLogger.log st module level message data now = .ok ⟨[], [], []⟩ := by
  have hgate : shouldLog st.config module level = false := by
    unfold shouldLog
    rw [hdisabled]
    simp
  unfold UniversalLogger.log
  rw [hgate]
  simp

/-- C4 witness: under `c4cfg` the module `"app"` is configured enabled
with all five levels, yet a `trace` call delivers nothing because the
global switch is off. -/
theorem global_kill_switch_dominance_witness :
    lookupKey c4cfg.modules "app" =
      some { enabled := true
             levels := ["trace", "debug", "info", "warn", "error"]
             transports := some ["console"] } ∧
    UniversalLogger.log ⟨c4cfg, [("console", consoleTransport)], "s"⟩
      "app" "trace" "hello" none "t0" = .ok ⟨[], [], []⟩ := by
  exact ⟨by decide,
    global_kill_switch_dominance ⟨c4cfg, [("console", consoleTransport)], "s"⟩
      "app" "trace" "hello" none "t0" (by decide)⟩

theorem transportAttempt_eq (entry : LogEntry) (t : Transport) :
    UniversalLogger.transportAttempt entry t =
      .ok (match t.logBehavior entry with
        | .ok _ => []
        | .error e =>
            ["[UniversalLogger] Transport " ++ t.name ++ " failed: " ++ e]) := by
  unfold UniversalLogger.transportAttempt jsTryCatch
  cases h : t.logBehavior entry <;> simp [h, Bind.bind, Except.bind, pure, Except.pure]

theorem fanout_console_errors (entry : LogEntry) (transports : List Transport) :
    (((transports.map (UniversalLogger.transportAttempt entry)).map
        promiseSettle).map UniversalLogger.settledMessages).flatten =
      fallbackMessages entry transports := by
  induction transports with
  | nil => rfl
  | cons t rest ih =>
      simp only [List.map_cons, List.flatten_cons, transportAttempt_eq, ih,
        fallbackMessages, List.filterMap_cons]
      cases h : t.logBehavior entry <;>
        simp [h, fallbackMessages, promiseSettle, UniversalLogger.settledMessages]

theorem sendToTransports_eq (entry : LogEntry) (transports : List Transport) :
    UniversalLogger.sendToTransports entry transports =
      .ok ⟨[], transports.map (fun t => (t.name, entry)),
           fallbackMessages entry transports⟩ := by
  unfold UniversalLogger.sendToTransports
  by_cases h : transports.length = 0
  · rw [List.length_eq_zero] at h
    subst h
    simp [fallbackMessages]
  · rw [if_neg h]
    simp only [promiseAllSettled, Bind.bind, Except.bind, pure, Except.pure]
    rw [fanout_console_errors entry transports]

/-- C1.  Full characterization of one `log()` call: the returned promise
is `.ok` for every dispatcher state and every combination of transport
behaviours (it never rejects); when the filter passes, every resolved
transport receives the constructed entry — the invocation list pairs
each resolved transport with the entry regardless of which transports
fail — and each failing transport contributes exactly one fallback
`console.error` diagnostic naming it. -/
theorem log_fanout_isolation (st : DispatcherState)
    (module level message : String) (data : Option String) (now : String) :
    UniversalLogger.log st module level message data now =
      .ok (if shouldLog st.config module level then
        { constructedEntries := [expectedEntry st module level message data now]
          invocations :=
            (UniversalLogger.getTransportsForModule st module).map
              (fun t => (t.name, expectedEntry st module level message data now))
          consoleErrors :=
            fallbackMessages (expectedEntry st module level message data now)
              (UniversalLogger.getTransportsForModule st module) }
      else ⟨[], [], []⟩) := by
  unfold UniversalLogger.log
  by_cases h : shouldLog st.config module level
  · simp only [h, Bool.not_true, if_neg, if_pos, Bind.bind, Except.bind,
      sendToTransports_eq, expectedEntry]
    simp [expectedEntry, pure, Except.pure]
  · simp [h]

theorem jsMapMethodCalls_returnsOnly (method : Transport → Option (JsCallResult Unit))
    (ts : List Transport) (h : returnsOnly method ts) :
    UniversalLogger.jsMapMethodCalls method ts =
      (ts.map Transport.name,
       .ok (ts.map (fun t => callPromise ((method t).getD (.returns (.ok ())))))) := by
  induction ts with
  | nil => rfl
  | cons t rest ih =>
      have ht := h t (List.mem_cons_self t rest)
      have hrest : returnsOnly method rest := fun u hu e =>
        h u (List.mem_cons_of_mem t hu) e
      unfold UniversalLogger.jsMapMethodCalls
      cases hc : (method t).getD (.returns (.ok ())) with
      | throws e =>
          exfalso
          cases hm : method t with
          | none =>
              rw [hm] at hc
              simp only [Option.getD_none] at hc
              cases hc
          | some c =>
              rw [hm] at hc
              simp only [Option.getD_some] at hc
              exact ht e (by rw [hm, hc])
      | returns p =>
          rw [ih hrest]
          simp [callPromise, hc, Except.map]

theorem jsMapMethodCalls_throwSplit (method : Transport → Option (JsCallResult Unit))
    (pre : List Transport) (t : Transport) (post : List Transport) (e : String)
    (hpre : returnsOnly method pre) (ht : method t = some (.throws e)) :
    UniversalLogger.jsMapMethodCalls method (pre ++ t :: post) =
      (pre.map Transport.name ++ [t.name], .error e) := by
  induction pre with
  | nil =>
      simp only [List.nil_append, List.map_nil]
      unfold UniversalLogger.jsMapMethodCalls
      rw [ht]
      rfl
  | cons u rest ih =>
      have hu := hpre u (List.mem_cons_self u rest)
      have hrest : returnsOnly method rest := fun v hv e2 =>
        hpre v (List.mem_cons_of_mem u hv) e2
      simp only [List.cons_append, List.map_cons]
      unfold UniversalLogger.jsMapMethodCalls
      cases hc : (method u).getD (.returns (.ok ())) with
      | throws e2 =>
          exfalso
          cases hm : method u with
          | none =>
              rw [hm] at hc
              simp only [Option.getD_none] at hc
              cases hc
          | some c =>
              rw [hm] at hc
              simp only [Option.getD_some] at hc
              exact hu e2 (by rw [hm, hc])
      | returns p =>
          rw [ih hrest]
          simp [Except.map]

/-- C6 counterexample: the claim that `dispatcher.flush()` never rejects
even when a transport's `flush()` throws synchronously fails on the
code.  In `c6state` the first flush-capable transport throws
synchronously from `flush()`: the throw escapes the bare `.map`
callback of core/Logger.ts line 248 before `Promise.allSettled` is
reached, so `flush()` itself rejects with that error and the second
transport's `flush()` is never invoked (the invocation trace contains
only `"fileSync"`); `cleanup()` behaves the same way. -/
theorem flush_sync_throw_counterexample :
    UniversalLogger.flush c6state = (["fileSync"], .error "disk full") ∧
    UniversalLogger.cleanup c6state = (["fileSync"], .error "handle closed") := by
  decide

/-- C6 amended.  `flush()` invokes `flush` left to right on exactly the
registered transports that define it.  When none of those calls throws
synchronously, every returned promise — including rejecting ones — is
settled by `Promise.allSettled` and `flush()` resolves without
rejecting, with one settled outcome per flush-capable transport in
registration order.  But when some transport's `flush()` throws
synchronously (the earliest such, after throw-free predecessors), the
throw escapes the bare `map` callback: `flush()` itself rejects with
that error and the transports after the thrower are not invoked.
`cleanup()` has the same two behaviours for `cleanup`. -/
theorem flush_cleanup_settle_unless_sync_throw (st : DispatcherState) :
    (returnsOnly Transport.flushBehavior
        ((st.transports.map Prod.snd).filter (fun t => t.flushBehavior.isSome)) →
      UniversalLogger.flush st =
        (((st.transports.map Prod.snd).filter
            (fun t => t.flushBehavior.isSome)).map Transport.name,
         .ok (((st.transports.map Prod.snd).filter
            (fun t => t.flushBehavior.isSome)).map
          (fun t => promiseSettle (callPromise (t.flushBehavior.getD (.returns (.ok ())))))))) ∧
    (∀ (pre : List Transport) (t : Transport) (post : List Transport) (e : String),
      (st.transports.map Prod.snd).filter (fun t => t.flushBehavior.isSome) =
        pre ++ t :: post →
      returnsOnly Transport.flushBehavior pre →
      t.flushBehavior = some (.throws e) →
      UniversalLogger.flush st = (pre.map Transport.name ++ [t.name], .error e)) ∧
    (returnsOnly Transport.cleanupBehavior
        ((st.transports.map Prod.snd).filter (fun t => t.cleanupBehavior.isSome)) →
      UniversalLogger.cleanup st =
        (((st.transports.map Prod.snd).filter
            (fun t => t.cleanupBehavior.isSome)).map Transport.name,
         .ok (((st.transports.map Prod.snd).filter
            (fun t => t.cleanupBehavior.isSome)).map
          (fun t => promiseSettle (callPromise (t.cleanupBehavior.getD (.returns (.ok ())))))))) ∧
    (∀ (pre : List Transport) (t : Transport) (post : List Transport) (e : String),
      (st.transports.map Prod.snd).filter (fun t => t.cleanupBehavior.isSome) =
        pre ++ t :: post →
      returnsOnly Transport.cleanupBehavior pre →
      t.cleanupBehavior = some (.throws e) →
      UniversalLogger.cleanup st = (pre.map Transport.name ++ [t.name], .error e)) := by
  refine ⟨?_, ?_, ?_, ?_⟩
  · intro h
    unfold UniversalLogger.flush
    dsimp only
    rw [jsMapMethodCalls_returnsOnly Transport.flushBehavior _ h]
    simp [promiseAllSettled, List.map_map, Function.comp]
  · intro pre t post e hsplit hpre ht
    unfold UniversalLogger.flush
    dsimp only
    rw [hsplit, jsMapMethodCalls_throwSplit Transport.flushBehavior pre t post e hpre ht]
  · intro h
    unfold UniversalLogger.cleanup
    dsimp only
    rw [jsMapMethodCalls_returnsOnly Transport.cleanupBehavior _ h]
    simp [promiseAllSettled, List.map_map, Function.comp]
  · intro pre t post e hsplit hpre ht
    unfold UniversalLogger.cleanup
    dsimp only
    rw [hsplit, jsMapMethodCalls_throwSplit Transport.cleanupBehavior pre t post e hpre ht]

/-- C6 amended witness: with only a rejecting-promise transport
flush-capable, `flush()` resolves with its rejection settled; with a
synchronously throwing transport first, `flush()` rejects and skips the
rest. -/
theorem flush_cleanup_settle_unless_sync_throw_witness :
    UniversalLogger.flush c6stateRejectingOnly =
      (["api"], .ok [Settled.rejected "timeout"]) ∧
    UniversalLogger.flush c6state = (["fileSync"], .error "disk full") := by
  constructor
  · have hro : returnsOnly Transport.flushBehavior
        ((c6stateRejectingOnly.transports.map Prod.snd).filter
          (fun t => t.flushBehavior.isSome)) := by
      intro t htmem e
      have htmem2 : t ∈ [rejectingFlushTransport] := htmem
      rw [List.mem_singleton] at htmem2
      subst htmem2
      simp [rejectingFlushTransport]
    have h := (flush_cleanup_settle_unless_sync_throw c6stateRejectingOnly).1 hro
    rw [h]
    rfl
  · have h := (flush_cleanup_settle_unless_sync_throw c6state).2.1
      [] throwingFlushTransport [rejectingFlushTransport] "disk full" rfl
      (by intro t htmem e; simp at htmem) rfl
    rw [h]
    rfl

/-- C10.  A present-but-empty configured transport list disables the
`["console"]` fallback: with `transports = []` the resolved name list is
empty and a filtered-through call constructs its entry but performs zero
deliveries and reports nothing; the fallback to `["console"]` applies
exactly when the module has no configuration entry or its `transports`
field is absent. -/
theorem empty_transport_list_no_console_fallback (cfg : LoggerConfig) (module : String) :
    (∀ mc : ModuleConfig, lookupKey cfg.modules module = some mc →
        mc.transports = some [] →
        UniversalLogger.getTransportNamesForModule cfg module = [] ∧
        ∀ (st : DispatcherState) (level message : String) (data : Option String)
          (now : String),
          st.config = cfg → shouldLog cfg module level = true →
          UniversalLogger.log st module level message data now =
            .ok ⟨[expectedEntry st module level message data now], [], []⟩) ∧
    (lookupKey cfg.modules module = none →
        UniversalLogger.getTransportNamesForModule cfg module = ["console"]) ∧
    (∀ mc : ModuleConfig, lookupKey cfg.modules module = some mc →
        mc.transports = none →
        UniversalLogger.getTransportNamesForModule cfg module = ["console"]) := by
  refine ⟨?_, ?_, ?_⟩
  · intro mc hmc hempty
    have hnames : UniversalLogger.getTransportNamesForModule cfg module = [] := by
      unfold UniversalLogger.getTransportNamesForModule
      rw [hmc]
      simp [hempty]
    refine ⟨hnames, ?_⟩
    intro st level message data now hst hpass
    have hpass2 : shouldLog st.config module level = true := by
      rw [hst]; exact hpass
    have hnames2 : UniversalLogger.getTransportNamesForModule st.config module = [] := by
      rw [hst]; exact hnames
    have hts : UniversalLogger.getTransportsForModule st module = [] := by
      unfold UniversalLogger.getTransportsForModule
      rw [hnames2]
      rfl
    unfold UniversalLogger.log
    rw [hpass2]
    simp [hts, sendToTransports_eq, fallbackMessages, expectedEntry,
      Bind.bind, Except.bind, pure, Except.pure]
  · intro hmc
    unfold UniversalLogger.getTransportNamesForModule
    rw [hmc]
    rfl
  · intro mc hmc habsent
    unfold UniversalLogger.getTransportNamesForModule
    rw [hmc]
    simp [habsent]

/-- C10 witness: under `c10cfg`, an `info` call on module `"m0"`
(configured `transports: []`) with the console transport registered
constructs its entry but invokes nothing, while module `"m1"` (no
`transports` field) and the unconfigured module `"nope"` resolve to the
`["console"]` fallback. -/
theorem empty_transport_list_no_console_fallback_witness :
    UniversalLogger.log ⟨c10cfg, [("console", consoleTransport)], "s"⟩
        "m0" "info" "hi" none "t0" =
      .ok ⟨[{ timestamp := "t0", level := "info", module := "m0", message := "hi",
              data := none, metadata := [], sessionId := "s" }], [], []⟩ ∧
    UniversalLogger.getTransportNamesForModule c10cfg "m1" = ["console"] ∧
    UniversalLogger.getTransportNamesForModule c10cfg "nope" = ["console"] := by
  have h0 := (empty_transport_list_no_console_fallback c10cfg "m0").1
    { enabled := true, levels := ["info"], transports := some [] } (by decide) rfl
  have hlog := h0.2 ⟨c10cfg, [("console", consoleTransport)], "s"⟩
    "info" "hi" none "t0" rfl (by decide)
  refine ⟨?_, ?_, ?_⟩
  · rw [hlog]
    rfl
  · exact (empty_transport_list_no_console_fallback c10cfg "m1").2.2
      { enabled := true, levels := ["info"], transports := none } (by decide) rfl
  · exact (empty_transport_list_no_console_fallback c10cfg "nope").2.1 (by decide)

theorem lookupKey_setKey_self {α : Type} (m : List (String × α)) (k : String) (v : α) :
    lookupKey (setKey m k v) k = some v := by
  induction m with
  | nil => simp [setKey, lookupKey]
  | cons kv rest ih =>
      obtain ⟨k0, v0⟩ := kv
      by_cases h : k = k0 <;> simp [setKey, lookupKey, h, ih]

theorem lookupKey_setKey_ne {α : Type} (m : List (String × α)) (k k2 : String) (v : α)
    (h : k2 ≠ k) : lookupKey (setKey m k v) k2 = lookupKey m k2 := by
  induction m with
  | nil => simp [setKey, lookupKey, h]
  | cons kv rest ih =>
      obtain ⟨k0, v0⟩ := kv
      by_cases h0 : k = k0
      · subst h0
        simp [setKey, lookupKey, h]
      · by_cases h2 : k2 = k0 <;> simp [setKey, lookupKey, h0, h2, ih]

theorem foldl_addTransport_lookup_of_notmem (ts : List Transport) :
    ∀ (d : DispatcherState) (name : String), name ∉ ts.map Transport.name →
      lookupKey (ts.foldl UniversalLogger.addTransport d).transports name =
        lookupKey d.transports name := by
  induction ts with
  | nil => intro d name _; rfl
  | cons t rest ih =>
      intro d name h
      simp only [List.map_cons, List.mem_cons] at h
      push_neg at h
      simp only [List.foldl_cons]
      rw [ih _ name h.2]
      exact lookupKey_setKey_ne d.transports t.name name t h.1

theorem foldl_addTransport_lookup_mem (ts : List Transport) :
    (ts.map Transport.name).Nodup →
    ∀ t ∈ ts, ∀ d : DispatcherState,
      lookupKey (ts.foldl UniversalLogger.addTransport d).transports t.name = some t := by
  induction ts with
  | nil =>
      intro _ t ht
      cases ht
  | cons t0 rest ih =>
      intro hnodup t ht d
      simp only [List.map_cons, List.nodup_cons] at hnodup
      simp only [List.foldl_cons]
      rcases List.mem_cons.mp ht with he | hm
      · subst he
        rw [foldl_addTransport_lookup_of_notmem rest _ t.name hnodup.1]
        exact lookupKey_setKey_self d.transports t.name t
      · exact ih hnodup.2 t hm _

theorem foldl_addTransport_config (ts : List Transport) :
    ∀ d : DispatcherState, (ts.foldl UniversalLogger.addTransport d).config = d.config := by
  induction ts with
  | nil => intro d; rfl
  | cons t rest ih =>
      intro d
      simp only [List.foldl_cons]
      rw [ih]
      rfl

/-- C5.  When `updateConfiguration` actually replaces the dispatcher
(the previous configuration is absent or the change guard reports a
difference), the registry rebuilds the instance with
`createLogger(newConfig, customTransports)`: the fresh dispatcher
carries the new configuration, and — when the custom transports carry
distinct names, as registration by unique name presumes — every
transport registered through the layer is registered on it, and resolves
for every module whose transport-name list mentions it, so logging
through the proxy module loggers (which always delegate to the current
instance) still reaches those transports. -/
theorem update_configuration_preserves_transports (st : RegistryState)
    (newConfig : LoggerConfig) (freshId : String)
    (hchange : ∀ current, st.currentConfig = some current →
      CommonLoggerConfig.configUnchanged current newConfig = false)
    (hnodup : (st.customTransports.map Transport.name).Nodup) :
    ∃ d : DispatcherState,
      (CommonLoggerConfig.updateConfiguration st newConfig freshId).instLogger = some d ∧
      d.config = newConfig ∧
      (∀ t ∈ st.customTransports, UniversalLogger.getTransport d t.name = some t) ∧
      ∀ t ∈ st.customTransports, ∀ module : String,
        t.name ∈ UniversalLogger.getTransportNamesForModule newConfig module →
        t ∈ UniversalLogger.getTransportsForModule d module := by
  refine ⟨createLogger newConfig st.customTransports freshId, ?_, ?_, ?_, ?_⟩
  · unfold CommonLoggerConfig.updateConfiguration
    cases hc : st.currentConfig with
    | none => rfl
    | some current => simp [hchange current hc]
  · unfold createLogger
    rw [foldl_addTransport_config]
    rfl
  · intro t ht
    unfold UniversalLogger.getTransport createLogger
    exact foldl_addTransport_lookup_mem st.customTransports hnodup t ht _
  · intro t ht module hname
    have hlook :
        lookupKey (createLogger newConfig st.customTransports freshId).transports t.name =
          some t := by
      unfold createLogger
      exact foldl_addTransport_lookup_mem st.customTransports hnodup t ht _
    have hcfg : (createLogger newConfig st.customTransports freshId).config = newConfig := by
      unfold createLogger
      rw [foldl_addTransport_config]
      rfl
    unfold UniversalLogger.getTransportsForModule
    rw [hcfg]
    exact List.mem_filterMap.mpr ⟨t.name, hname, hlook⟩

/-- C5 witness: updating `c5state` to the differing `c5newConfig`
rebuilds the dispatcher with the custom transport `"file"` re-attached
and resolvable for an unconfigured module (whose fallback list is
`["console"]` — so also checked via a module routed to `"file"`). -/
theorem update_configuration_preserves_transports_witness :
    ∃ d : DispatcherState,
      (CommonLoggerConfig.updateConfiguration c5state c5newConfig "s2").instLogger =
        some d ∧
      d.config = c5newConfig ∧
      UniversalLogger.getTransport d "file" = some failingTransport := by
  obtain ⟨d, hd, hcfg, hmem, _⟩ :=
    update_configuration_preserves_transports c5state c5newConfig "s2"
      (by
        intro current hcu
        have : current = c3cfg := by
          have h2 := hcu
          simp [c5state] at h2
          exact h2.symm
        subst this
        decide)
      (by decide)
  exact ⟨d, hd, hcfg, hmem failingTransport (by simp [c5state])⟩

theorem getElem?_some_lt {α : Type} (l : List α) (n : Nat) (a : α)
    (h : l[n]? = some a) : n < l.length := by
  induction l generalizing n with
  | nil => cases h
  | cons x xs ih =>
      cases n with
      | zero => simp
      | succ m =>
          have hm : xs[m]? = some a := by simpa using h
          simpa using ih m hm

theorem getElem?_set_self_of_lt {α : Type} (l : List α) (n : Nat) (a : α)
    (h : n < l.length) : (l.set n a)[n]? = some a := by
  induction l generalizing n with
  | nil => simp at h
  | cons x xs ih =>
      cases n with
      | zero => simp
      | succ m =>
          have hm : m < xs.length := by simpa using h
          simpa using ih m hm

theorem getElem?_set_of_ne {α : Type} (l : List α) (m n : Nat) (a : α)
    (h : m ≠ n) : (l.set m a)[n]? = l[n]? := by
  induction l generalizing m n with
  | nil => rfl
  | cons x xs ih =>
      cases m with
      | zero =>
          cases n with
          | zero => exact absurd rfl h
          | succ k => simp
      | succ m2 =>
          cases n with
          | zero => simp
          | succ k =>
              have hk : m2 ≠ k := by omega
              simpa using ih m2 k hk

theorem getElem?_append_lt {α : Type} (l l2 : List α) (n : Nat)
    (h : n < l.length) : (l ++ l2)[n]? = l[n]? := by
  induction l generalizing n with
  | nil => simp at h
  | cons x xs ih =>
      cases n with
      | zero => simp
      | succ m =>
          have hm : m < xs.length := by simpa using h
          simpa using ih m hm

theorem getElem?_append_singleton_length {α : Type} (l : List α) (a : α) :
    (l ++ [a])[l.length]? = some a := by
  induction l with
  | nil => rfl
  | cons x xs ih => simp [ih]

theorem heap_read_write_self (h : Heap) (addr : Nat) (cfg old : LoggerConfig)
    (hread : h.read addr = some old) :
    (h.write addr cfg).read addr = some cfg := by
  have hlt : addr < h.cells.length := getElem?_some_lt h.cells addr old hread
  unfold Heap.read Heap.write
  exact getElem?_set_self_of_lt h.cells addr cfg hlt

theorem heap_read_write_ne (h : Heap) (a b : Nat) (cfg : LoggerConfig) (hne : a ≠ b) :
    (h.write a cfg).read b = h.read b := by
  unfold Heap.read Heap.write
  exact getElem?_set_of_ne h.cells a b cfg hne

/-- C7 counterexample: the configuration object supplied to the
constructor IS mutated in place by a subsequent mutation operation.  On
a heap holding the caller's object `c7cfg` at address 0, constructing
the dispatcher on address 0 and calling `setGlobalEnabled(false)` makes
the object at address 0 differ from `c7cfg` — the caller's object
changed, because the constructor stored the reference without copying
and `setGlobalEnabled` assigns `this.config.enabled` through it. -/
theorem config_mutation_aliases_counterexample :
    Heap.read c7heap 0 = some c7cfg ∧
    Heap.read (AliasModel.setGlobalEnabled c7heap (AliasModel.mkLogger 0) false) 0 =
      some { c7cfg with enabled := false } ∧
    Heap.read (AliasModel.setGlobalEnabled c7heap (AliasModel.mkLogger 0) false) 0 ≠
      some c7cfg := by
  decide

/-- C7 amended: the configuration-mutation operations do not copy.  For
a dispatcher constructed on a live configuration object,
`setGlobalEnabled`, `setDefaultLevel` and `setModuleConfig` update the
fields of that same object in place, and `setMetadata` builds a fresh
merged metadata record but assigns it into that same object — so the
object supplied to the constructor is mutated by each of the four
operations (rather than never, as claimed). -/
theorem config_mutations_write_through_alias (h : Heap) (addr : Nat)
    (cfg : LoggerConfig) (hread : h.read addr = some cfg) (enabled : Bool)
    (level module : String) (mc : ModuleConfig)
    (metadata : List (String × String)) :
    (AliasModel.setGlobalEnabled h (AliasModel.mkLogger addr) enabled).read addr =
      some { cfg with enabled := enabled } ∧
    (AliasModel.setDefaultLevel h (AliasModel.mkLogger addr) level).read addr =
      some { cfg with defaultLevel := level } ∧
    (AliasModel.setModuleConfig h (AliasModel.mkLogger addr) module mc).read addr =
      some { cfg with modules := setKey cfg.modules module mc } ∧
    (AliasModel.setMetadata h (AliasModel.mkLogger addr) metadata).read addr =
      some { cfg with metadata := AliasModel.mergeRecords cfg.metadata metadata } := by
  refine ⟨?_, ?_, ?_, ?_⟩
  · unfold AliasModel.setGlobalEnabled AliasModel.mkLogger
    rw [hread]
    exact heap_read_write_self h addr _ cfg hread
  · unfold AliasModel.setDefaultLevel AliasModel.mkLogger
    rw [hread]
    exact heap_read_write_self h addr _ cfg hread
  · unfold AliasModel.setModuleConfig AliasModel.mkLogger
    rw [hread]
    exact heap_read_write_self h addr _ cfg hread
  · unfold AliasModel.setMetadata AliasModel.mkLogger
    rw [hread]
    exact heap_read_write_self h addr _ cfg hread

/-- C7 amended witness: the four in-place mutations observed on the
concrete one-cell heap `c7heap`. -/
theorem config_mutations_write_through_alias_witness :
    (AliasModel.setGlobalEnabled c7heap (AliasModel.mkLogger 0) false).read 0 =
      some { c7cfg with enabled := false } ∧
    (AliasModel.setDefaultLevel c7heap (AliasModel.mkLogger 0) "error").read 0 =
      some { c7cfg with defaultLevel := "error" } ∧
    (AliasModel.setModuleConfig c7heap (AliasModel.mkLogger 0) "db"
        ⟨false, [], some []⟩).read 0 =
      some { c7cfg with modules := setKey c7cfg.modules "db" ⟨false, [], some []⟩ } ∧
    (AliasModel.setMetadata c7heap (AliasModel.mkLogger 0) [("k", "v")]).read 0 =
      some { c7cfg with metadata := AliasModel.mergeRecords c7cfg.metadata [("k", "v")] } :=
  config_mutations_write_through_alias c7heap 0 c7cfg (by decide) false "error" "db"
    ⟨false, [], some []⟩ [("k", "v")]

/-- C8.  `getConfig()` materializes a deep copy: it allocates a fresh
object (a new address, distinct from the dispatcher's configuration
address) holding a value structurally equal to the internal
configuration at the time of the call, and overwriting the returned
object with arbitrary content afterwards leaves the internal
configuration unchanged and leaves every subsequent `shouldLog`
filtering decision unchanged. -/
theorem getConfig_deep_copy_isolation (h : Heap) (addr : Nat) (cfg : LoggerConfig)
    (hread : h.read addr = some cfg) :
    (AliasModel.getConfig h (AliasModel.mkLogger addr)).2 ≠ addr ∧
    ((AliasModel.getConfig h (AliasModel.mkLogger addr)).1).read
        (AliasModel.getConfig h (AliasModel.mkLogger addr)).2 = some cfg ∧
    ∀ mutated : LoggerConfig,
      (((AliasModel.getConfig h (AliasModel.mkLogger addr)).1).write
          (AliasModel.getConfig h (AliasModel.mkLogger addr)).2 mutated).read addr =
        some cfg ∧
      ∀ module level : String,
        AliasModel.shouldLogRef
            (((AliasModel.getConfig h (AliasModel.mkLogger addr)).1).write
              (AliasModel.getConfig h (AliasModel.mkLogger addr)).2 mutated)
            (AliasModel.mkLogger addr) module level =
          shouldLog cfg module level := by
  have hread2 : h.cells[addr]? = some cfg := hread
  have hlt : addr < h.cells.length := getElem?_some_lt h.cells addr cfg hread2
  have hgc : AliasModel.getConfig h (AliasModel.mkLogger addr) =
      (⟨h.cells ++ [cfg]⟩, h.cells.length) := by
    unfold AliasModel.getConfig AliasModel.mkLogger AliasModel.jsonDeepCopy Heap.alloc
    rw [hread]
  have hne : h.cells.length ≠ addr := by omega
  have hreadNew : (Heap.mk (h.cells ++ [cfg])).read addr = some cfg := by
    show (h.cells ++ [cfg])[addr]? = some cfg
    rw [getElem?_append_lt h.cells [cfg] addr hlt]
    exact hread2
  refine ⟨?_, ?_, ?_⟩
  · rw [hgc]
    exact hne
  · rw [hgc]
    exact getElem?_append_singleton_length h.cells cfg
  · intro mutated
    have hiso : ((Heap.mk (h.cells ++ [cfg])).write h.cells.length mutated).read addr =
        some cfg := by
      rw [heap_read_write_ne _ _ _ _ hne]
      exact hreadNew
    constructor
    · rw [hgc]
      exact hiso
    · intro module level
      rw [hgc]
      unfold AliasModel.shouldLogRef AliasModel.mkLogger
      rw [hiso]

/-- C8 witness: on the concrete heap `c7heap`, the copy returned by
`getConfig` lives at a fresh address, holds the internal configuration,
and overwriting it with an unrelated configuration changes neither the
internal object nor a concrete filtering decision. -/
theorem getConfig_deep_copy_isolation_witness :
    (AliasModel.getConfig c7heap (AliasModel.mkLogger 0)).2 ≠ 0 ∧
    ((AliasModel.getConfig c7heap (AliasModel.mkLogger 0)).1).read
        (AliasModel.getConfig c7heap (AliasModel.mkLogger 0)).2 = some c7cfg ∧
    (((AliasModel.getConfig c7heap (AliasModel.mkLogger 0)).1).write
        (AliasModel.getConfig c7heap (AliasModel.mkLogger 0)).2 c4cfg).read 0 =
      some c7cfg ∧
    AliasModel.shouldLogRef
        (((AliasModel.getConfig c7heap (AliasModel.mkLogger 0)).1).write
          (AliasModel.getConfig c7heap (AliasModel.mkLogger 0)).2 c4cfg)
        (AliasModel.mkLogger 0) "app" "info" = shouldLog c7cfg "app" "info" := by
  have h := getConfig_deep_copy_isolation c7heap 0 c7cfg (by decide)
  exact ⟨h.1, h.2.1, (h.2.2 c4cfg).1, (h.2.2 c4cfg).2 "app" "info"⟩

/-- C9 counterexample: the claim that binary buffers become a
placeholder with type and byte length fails on the program.
`Buffer.prototype.toJSON` runs before the replacer (ECMA-262
SerializeJSONProperty), so `Buffer.isBuffer` in the replacer never
matches and a nested two-byte buffer renders as the expanded
`type`/`data` object, not as the quoted `<Buffer 2 bytes>` placeholder
the replacer branch would have produced. -/
theorem formatting_buffer_counterexample :
    formatArg (.obj [("b", .buffer [5, 9])]) =
      "\x7b\n  \"b\": \x7b\n    \"type\": \"Buffer\",\n    \"data\": [\n      5,\n      9\n    ]\n  \x7d\n\x7d" ∧
    formatArg (.obj [("b", .buffer [5, 9])]) ≠
      "\x7b\n  \"b\": \"<Buffer 2 bytes>\"\n\x7d" := by
  decide

/-- C9 amended.  `formatLogMessage` is a total function into strings (it
never throws: a throwing serialization is caught per argument), and the
renderings are: a BigInt argument passed directly renders as its decimal
string; a BigInt nested in a serialized object renders as the JSON
string of its decimal form; nested and top-level function values render
as `<Function name>` or `<Function anonymous>`; date values render as
their ISO timestamp string; binary buffers are expanded by their own
`toJSON` into the plain object with `type: "Buffer"` and the byte array
`data` before the replacer runs, and render as that object's JSON (the
replacer's `<Buffer n bytes>` placeholder branch is dead code); an
argument whose serialization throws (for example a circular object,
even nested under other fields) is replaced by
`<Error stringifying: message>`; and the per-argument strings are
joined with a single space. -/
theorem formatting_robustness :
    (∀ args : List JSValue,
      formatLogMessage args = String.intercalate " " (args.map formatArg)) ∧
    (∀ n : Int, formatArg (.bigintV n) = toString n) ∧
    (∀ (gap : String) (n : Int),
      serValue gap (.bigintV n) = .ok (some (jsonQuote (toString n)))) ∧
    (∀ (gap nm src : String),
      serValue gap (.fn (some nm) src) =
        .ok (some (jsonQuote ("<Function " ++ nm ++ ">")))) ∧
    (∀ (gap src : String),
      serValue gap (.fn none src) = .ok (some (jsonQuote "<Function anonymous>"))) ∧
    (∀ (gap iso : String), serValue gap (.date iso) = .ok (some (jsonQuote iso))) ∧
    (∀ bytes : List Nat,
      applyToJSON (.buffer bytes) =
        .obj [("type", .str "Buffer"),
              ("data", .arr (bytes.map (fun b => JSValue.num (toString b))))]) ∧
    (∀ (gap msg : String), serValue gap (.unserializable msg) = .error msg) ∧
    (∀ msg : String,
      formatArg (.unserializable msg) = "<Error stringifying: " ++ msg ++ ">") ∧
    (∀ (k msg : String) (rest : List (String × JSValue)),
      formatArg (.obj ((k, .unserializable msg) :: rest)) =
        "<Error stringifying: " ++ msg ++ ">") ∧
    formatArg (.buffer [5]) =
      "\x7b\n  \"type\": \"Buffer\",\n  \"data\": [\n    5\n  ]\n\x7d" ∧
    formatArg (.obj [("n", .bigintV 123), ("f", .fn none "src"),
        ("d", .date "2026-01-01T00:00:00.000Z"), ("b", .buffer [5, 9])]) =
      "\x7b\n  \"n\": \"123\",\n  \"f\": \"<Function anonymous>\",\n  \"d\": \"2026-01-01T00:00:00.000Z\",\n  \"b\": \x7b\n    \"type\": \"Buffer\",\n    \"data\": [\n      5,\n      9\n    ]\n  \x7d\n\x7d" ∧
    formatLogMessage [.str "x", .obj [("n", .bigintV 123)],
        .unserializable "Converting circular structure to JSON"] =
      "x \x7b\n  \"n\": \"123\"\n\x7d <Error stringifying: Converting circular structure to JSON>" := by
  have hanon : ("<Function " ++ "anonymous" ++ ">" : String) = "<Function anonymous>" := by
    decide
  refine ⟨fun args => rfl, fun n => rfl, fun gap n => rfl, fun gap nm src => rfl,
    fun gap src => by rw [← hanon]; rfl, fun gap iso => rfl, fun bytes => rfl,
    fun gap msg => rfl, fun msg => rfl, fun k msg rest => rfl,
    by decide, by decide, by decide⟩

end DqcaiLogger
